import Mathlib

/-!
Verification of the Sutter MP-285 serial driver (mp285sutterwithGUI.py).

The driver core is embedded shallowly: bytes are natural numbers below 256,
byte strings are lists, the rational numbers stand in for the double
precision values the source manipulates, and the fallible struct pack and
unpack calls return Option.  The source targets a little-endian platform on
which the struct formats H and l denote a 2-byte unsigned and a 4-byte
signed integer (the script opens COM3, a Windows serial port, where the C
long is four bytes).
-/

/-- Terminator byte: carriage return 0x0D, ending every command frame. -/
def CR : Nat := 13

/-- struct.pack of format H (source line 150): an unsigned 16-bit integer in
little-endian byte order; packing fails when the value does not fit. -/
def packH (v : Nat) : Option (List Nat) :=
  if v < 65536 then some [v % 256, v / 256] else none

/-- struct.pack of format B (source line 154): a single unsigned byte;
packing fails when the value does not fit. -/
def packB (v : Nat) : Option Nat :=
  if v < 256 then some v else none

/-- Payload encoding of setVelocity (source lines 150-154): the velocity is
packed as an unsigned 16-bit little-endian integer; when the scale factor
equals 50 the source unpacks the second byte, adds 128 to it (the value
travels through a double, which leaves it unchanged) and packs it back as
the second byte.  Any scale-factor value other than 50 leaves the two bytes
untouched; no validation of either argument is performed. -/
def setVelocityEncode (vel vScalF : Nat) : Option (List Nat) :=
  match packH vel with
  | none => none
  | some velb =>
    if vScalF = 50 then
      match packB (velb.getD 1 0 + 128) with
      | none => none
      | some hi => some [velb.getD 0 0, hi]
    else some velb

/-- The full frame written by setVelocity (source line 155): opcode V (86),
the two payload bytes, and the terminator. -/
def setVelocityWrites (vel vScalF : Nat) : Option (List Nat) :=
  (setVelocityEncode vel vScalF).map (fun bs => 86 :: (bs ++ [CR]))

/-- The calibration quantities decoded from the 32-byte status block and
cached on the controller (source lines 186-193). -/
structure Calibration where
  stepMult : ℚ
  currentVelocity : ℚ
  vScaleFactor : ℚ
  deriving DecidableEq

/-- Status decode performed by getStatus (source lines 186-193): the step
multiplier is byte 25 times 256 plus byte 24; the scale factor is 50 when
byte 29 exceeds 127 and 10 otherwise; the current velocity masks byte 29
with 127 before combining it with byte 28. -/
def statusDecode (b : List Nat) : Calibration :=
  { stepMult := (b.getD 25 0 : ℚ) * 256 + (b.getD 24 0 : ℚ)
  , currentVelocity := ((127 &&& b.getD 29 0 : Nat) : ℚ) * 256 + (b.getD 28 0 : ℚ)
  , vScaleFactor := if 127 < b.getD 29 0 then 50 else 10 }

/-- The 32-byte status block printed in the source's own example session
(source line 54): byte 24 is 25, byte 25 is 0, byte 28 is 200, byte 29 is 0. -/
def statusFixtureA : List Nat :=
  [64, 0, 2, 4, 7, 0, 99, 0, 99, 0, 20, 0, 136, 19, 1, 120, 112, 23, 16, 39,
   80, 0, 0, 0, 25, 0, 4, 0, 200, 0, 84, 1]

/-- The same block with byte 28 set to 1 and byte 29 set to 172, that is
0x80 ||| 44: bit 7 set and low seven bits 44. -/
def statusFixtureB : List Nat :=
  [64, 0, 2, 4, 7, 0, 99, 0, 99, 0, 20, 0, 136, 19, 1, 120, 112, 23, 16, 39,
   80, 0, 0, 0, 25, 0, 4, 0, 1, 172, 84, 1]

/-- Reinterpretation of an unsigned 32-bit value as a signed one, in two's
complement, as struct.unpack of a 4-byte signed long performs it. -/
def toSigned32 (n : Nat) : ℤ :=
  if n < 2 ^ 31 then (n : ℤ) else (n : ℤ) - 2 ^ 32

/-- Little-endian combination of four bytes into one unsigned value. -/
def le32 (b0 b1 b2 b3 : Nat) : Nat :=
  b0 + b1 * 256 + b2 * 65536 + b3 * 16777216

/-- struct.unpack with format lll (source line 120) applied to twelve bytes:
three little-endian signed 32-bit integers. -/
def unpackLLL (bs : List Nat) : ℤ × ℤ × ℤ :=
  (toSigned32 (le32 (bs.getD 0 0) (bs.getD 1 0) (bs.getD 2 0) (bs.getD 3 0)),
   toSigned32 (le32 (bs.getD 4 0) (bs.getD 5 0) (bs.getD 6 0) (bs.getD 7 0)),
   toSigned32 (le32 (bs.getD 8 0) (bs.getD 9 0) (bs.getD 10 0) (bs.getD 11 0)))

/-- Position decode of getPosition (source line 120): each unpacked step
count is divided by the cached step multiplier. -/
def getPositionDecode (bs : List Nat) (stepMult : ℚ) : ℚ × ℚ × ℚ :=
  (((unpackLLL bs).1 : ℚ) / stepMult,
   ((unpackLLL bs).2.1 : ℚ) / stepMult,
   ((unpackLLL bs).2.2 : ℚ) / stepMult)

/-- getPosition (source lines 114-126).  The argument resp is whatever the
13-byte read returned, possibly short on timeout.  The source slices the
first 12 bytes and unpacks them; struct.unpack raises when fewer than 12
bytes are present (modelled as none).  No other length check exists: any
read of at least 12 bytes is decoded. -/
def getPositionModel (resp : List Nat) (stepMult : ℚ) : Option (ℚ × ℚ × ℚ) :=
  if 12 ≤ resp.length then some (getPositionDecode (resp.take 12) stepMult)
  else none

/-- Truncation toward zero, the behaviour of the int call applied to the
scaled coordinates on source line 133. -/
def truncTowardZero (q : ℚ) : ℤ := q.num.tdiv q.den

/-- The unsigned 32-bit word representing a signed value, two's complement. -/
def word32 (z : ℤ) : Nat := (z % 2 ^ 32).toNat

/-- The four little-endian bytes of a signed 32-bit value. -/
def toBytesLE32 (z : ℤ) : List Nat :=
  [word32 z % 256, word32 z / 256 % 256, word32 z / 65536 % 256,
   word32 z / 16777216 % 256]

/-- struct.pack of format l: one signed 4-byte long, little-endian; packing
fails when the value is out of range. -/
def packL (z : ℤ) : Option (List Nat) :=
  if -(2 ^ 31) ≤ z ∧ z < 2 ^ 31 then some (toBytesLE32 z) else none

/-- struct.pack with format lll of the three step counts (source line 133). -/
def packLLL (x y z : ℤ) : Option (List Nat) := do
  let b1 ← packL x
  let b2 ← packL y
  let b3 ← packL z
  pure (b1 ++ b2 ++ b3)

/-- The observable outcome of one gotoPosition call: the frames written to
the serial link, the exit status when the process was terminated, whether a
struct packing error was raised, the timeout message (carrying the
configured timeout in seconds) or the completion message (carrying the
elapsed time) that was printed, and the value returned to the caller. -/
structure GotoResult where
  writes : List (List Nat)
  exited : Option Nat
  packErr : Bool
  timeoutMsg : Option Nat
  completedMsg : Option ℚ
  retval : Option ℚ
  deriving DecidableEq

/-- The read timeout configured in the constructor (source line 87). -/
def timeOut : Nat := 30

/-- gotoPosition (source lines 129-142).  pos is the argument, stepMult the
cached multiplier, ackReceived tells whether the one-byte acknowledgement
read returned a byte before the timeout, startt and endt are the wall-clock
times taken just before the write and just after the read.  A position
argument whose length is not 3 terminates the process with exit status 1
before anything is written; otherwise each coordinate is scaled by the
multiplier, truncated toward zero and packed, the frame opcode m (109) plus
twelve bytes plus terminator is written, and one byte is read.  An empty
read prints the timeout message; otherwise the elapsed-time message is
printed.  The function has no return statement, so the caller always
receives None. -/
def gotoPositionModel (pos : List ℚ) (stepMult : ℚ) (ackReceived : Bool)
    (startt endt : ℚ) : GotoResult :=
  if pos.length ≠ 3 then
    { writes := [], exited := some 1, packErr := false,
      timeoutMsg := none, completedMsg := none, retval := none }
  else
    match packLLL (truncTowardZero (pos.getD 0 0 * stepMult))
        (truncTowardZero (pos.getD 1 0 * stepMult))
        (truncTowardZero (pos.getD 2 0 * stepMult)) with
    | none =>
      { writes := [], exited := none, packErr := true,
        timeoutMsg := none, completedMsg := none, retval := none }
    | some xyzb =>
      if ackReceived then
        { writes := [109 :: (xyzb ++ [CR])], exited := none, packErr := false,
          timeoutMsg := none, completedMsg := some (endt - startt),
          retval := none }
      else
        { writes := [109 :: (xyzb ++ [CR])], exited := none, packErr := false,
          timeoutMsg := some timeOut, completedMsg := none, retval := none }

/-- The message printed at the end of the constructor (source lines 102-105). -/
inductive StartupMsg where
  | ready : StartupMsg
  | warning : StartupMsg
  deriving DecidableEq

/-- The observable outcome of constructing the controller: frames written,
exit status when the process was terminated, whether the 32-byte status
unpack raised, the cached calibration state, and the startup message. -/
structure InitResult where
  writes : List (List Nat)
  exited : Option Nat
  structErr : Bool
  calib : Option Calibration
  msg : Option StartupMsg
  deriving DecidableEq

/-- The constructor (source lines 85-105).  openOk tells whether opening the
serial port succeeded; statusResp is what the 32-byte status read returned.
On open failure the process exits with status 1 (line 96).  Otherwise the
velocity is set to (200, 10), the panel is updated (opcode n, 110), the
status is queried (opcode s, 115) and decoded, the result is cached, and
the ready message is printed when the decoded current velocity is 200, the
warning message otherwise; the constructor returns the object in both
cases.  A status read of fewer than 32 bytes makes the unpack raise. -/
def initModel (openOk : Bool) (statusResp : List Nat) : InitResult :=
  if openOk then
    let vw := match setVelocityWrites 200 10 with
      | some w => [w]
      | none => []
    if statusResp.length = 32 then
      let cal := statusDecode statusResp
      { writes := vw ++ [[110, CR], [115, CR]], exited := none,
        structErr := false, calib := some cal,
        msg := some (if cal.currentVelocity = 200 then StartupMsg.ready
          else StartupMsg.warning) }
    else
      { writes := vw ++ [[110, CR], [115, CR]], exited := none,
        structErr := true, calib := none, msg := none }
  else
    { writes := [], exited := some 1, structErr := false, calib := none,
      msg := none }

/-! ## Helper lemmas -/

/-- Truncation toward zero is the identity on integers. -/
theorem truncTowardZero_intCast (z : ℤ) : truncTowardZero (z : ℚ) = z := by
  unfold truncTowardZero
  rw [Rat.num_intCast, Rat.den_intCast]
  exact Int.tdiv_one z

/-- Masking with 127 is reduction modulo 128. -/
theorem and127_eq_mod (x : Nat) : 127 &&& x = x % 128 := by
  have h : (127 : Nat) = 2 ^ 7 - 1 := rfl
  rw [h, Nat.land_comm]
  exact Nat.and_pow_two_sub_one_eq_mod x 7

/-- For a byte, bit 7 is set exactly when the value exceeds 127. -/
theorem byte_testBit7 (x : Nat) (hx : x < 256) :
    (127 < x) ↔ Nat.testBit x 7 = true := by
  rw [Nat.testBit_to_div_mod]
  simp only [decide_eq_true_eq]
  omega

/-- Unpacking the packed bytes of a signed 32-bit value recovers it. -/
theorem toSigned32_le32_word32 (z : ℤ) (h1 : -(2 ^ 31) ≤ z) (h2 : z < 2 ^ 31) :
    toSigned32 (le32 (word32 z % 256) (word32 z / 256 % 256)
      (word32 z / 65536 % 256) (word32 z / 16777216 % 256)) = z := by
  unfold toSigned32 le32 word32
  split <;> omega

/-- unpackLLL on three packed words reads each word back. -/
theorem unpackLLL_toBytes (x y z : ℤ) :
    unpackLLL (toBytesLE32 x ++ toBytesLE32 y ++ toBytesLE32 z) =
      (toSigned32 (le32 (word32 x % 256) (word32 x / 256 % 256)
        (word32 x / 65536 % 256) (word32 x / 16777216 % 256)),
       toSigned32 (le32 (word32 y % 256) (word32 y / 256 % 256)
        (word32 y / 65536 % 256) (word32 y / 16777216 % 256)),
       toSigned32 (le32 (word32 z % 256) (word32 z / 256 % 256)
        (word32 z / 65536 % 256) (word32 z / 16777216 % 256))) := rfl

/-! ## Claim theorems -/

/-- C1: for every 32-byte status block of bytes, the decode performed by
getStatus yields stepMultiplier equal to byte 24 plus byte 25 times 256,
velocityScaleFactor 50 exactly when bit 7 of byte 29 is set and 10
otherwise, and currentVelocity equal to byte 29 masked with 0x7F, times
256, plus byte 28; on the fixture whose byte 29 is 0x80 ||| 44 and whose
byte 28 is 1 it yields currentVelocity 11265 and velocityScaleFactor 50. -/
theorem getStatus_decode_spec (b : List Nat) (hlen : b.length = 32)
    (h29 : b.getD 29 0 < 256) :
    (statusDecode b).stepMult = (b.getD 24 0 : ℚ) + (b.getD 25 0 : ℚ) * 256 ∧
    (statusDecode b).vScaleFactor
      = (if Nat.testBit (b.getD 29 0) 7 then (50 : ℚ) else 10) ∧
    (statusDecode b).currentVelocity
      = ((b.getD 29 0 % 128 : Nat) : ℚ) * 256 + ((b.getD 28 0 : Nat) : ℚ) ∧
    (statusDecode statusFixtureB).currentVelocity = 11265 ∧
    (statusDecode statusFixtureB).vScaleFactor = 50 := by
  refine ⟨?_, ?_, ?_, ?_, ?_⟩
  · unfold statusDecode
    ring
  · unfold statusDecode
    by_cases hc : 127 < b.getD 29 0
    · rw [if_pos hc, if_pos ((byte_testBit7 _ h29).mp hc)]
    · rw [if_neg hc, if_neg (fun hx => hc ((byte_testBit7 _ h29).mpr hx))]
  · unfold statusDecode
    rw [and127_eq_mod]
  · have e29 : statusFixtureB.getD 29 0 = 172 := by decide
    have e28 : statusFixtureB.getD 28 0 = 1 := by decide
    have emask : (127 &&& 172 : Nat) = 44 := by decide
    unfold statusDecode
    rw [e29, e28, emask]
    norm_num
  · have e29 : statusFixtureB.getD 29 0 = 172 := by decide
    unfold statusDecode
    rw [e29]
    norm_num

/-- C1 witness: the general decode theorem applied to the concrete fixture
block with byte 29 equal to 172 and byte 28 equal to 1. -/
theorem getStatus_decode_spec_witness :
    (statusDecode statusFixtureB).stepMult
      = (statusFixtureB.getD 24 0 : ℚ) + (statusFixtureB.getD 25 0 : ℚ) * 256 ∧
    (statusDecode statusFixtureB).vScaleFactor
      = (if Nat.testBit (statusFixtureB.getD 29 0) 7 then (50 : ℚ) else 10) ∧
    (statusDecode statusFixtureB).currentVelocity
      = ((statusFixtureB.getD 29 0 % 128 : Nat) : ℚ) * 256
        + ((statusFixtureB.getD 28 0 : Nat) : ℚ) ∧
    (statusDecode statusFixtureB).currentVelocity = 11265 ∧
    (statusDecode statusFixtureB).vScaleFactor = 50 :=
  getStatus_decode_spec statusFixtureB (by decide) (by decide)

/-- C2: for every magnitude in [0, 32767] and scale factor in {10, 50}, the
velocity encode produces exactly the two bytes of the magnitude as an
unsigned little-endian 16-bit integer, with 128 added to the second byte
when the scale factor is 50 and the second byte untouched when it is 10; in
consequence the magnitude is recoverable from the low byte and the low
seven bits of the high byte, and bit 7 of the high byte is set exactly when
the scale factor is 50. -/
theorem setVelocity_encode_spec (vel vScalF : Nat) (hv : vel ≤ 32767)
    (hs : vScalF = 10 ∨ vScalF = 50) :
    setVelocityEncode vel vScalF
      = some [vel % 256, vel / 256 + (if vScalF = 50 then 128 else 0)] ∧
    vel % 256 + (vel / 256 + (if vScalF = 50 then 128 else 0)) % 128 * 256
      = vel ∧
    (Nat.testBit (vel / 256 + (if vScalF = 50 then 128 else 0)) 7 = true
      ↔ vScalF = 50) := by
  have h16 : vel < 65536 := by omega
  have h7 : vel / 256 ≤ 127 := by omega
  refine ⟨?_, ?_, ?_⟩
  · rcases hs with h | h <;> subst h
    · simp [setVelocityEncode, packH, h16]
    · have hfit : vel / 256 + 128 < 256 := by omega
      simp [setVelocityEncode, packH, packB, h16, hfit]
  · rcases hs with h | h <;> subst h <;> simp <;> omega
  · rw [Nat.testBit_to_div_mod]
    rcases hs with h | h <;> subst h <;> simp <;> omega

/-- C2 witness: the encode theorem applied to magnitude 300 and scale
factor 50. -/
theorem setVelocity_encode_spec_witness :
    setVelocityEncode 300 50
      = some [300 % 256, 300 / 256 + (if (50 : Nat) = 50 then 128 else 0)] ∧
    300 % 256 + (300 / 256 + (if (50 : Nat) = 50 then 128 else 0)) % 128 * 256
      = 300 ∧
    (Nat.testBit (300 / 256 + (if (50 : Nat) = 50 then 128 else 0)) 7 = true
      ↔ (50 : Nat) = 50) :=
  setVelocity_encode_spec 300 50 (by decide) (Or.inr rfl)

/-- C3 counterexample: setVelocity(40000, 10) does not fail and does not
stop short of I/O: the encode succeeds and the full frame, opcode V, the
two little-endian magnitude bytes 64 and 156 (with bit 15 of the packed
field set by the large magnitude) and the terminator, is written. -/
theorem setVelocity_40000_no_failure :
    setVelocityWrites 40000 10 = some [86, 64, 156, 13] ∧
    setVelocityWrites 40000 10 ≠ none := by
  constructor <;> decide

/-- C3 amended: setVelocity performs no range validation.  Every magnitude
below 65536 together with any scale factor other than 50 is packed as an
unsigned little-endian 16-bit integer and written to the transport in a
complete frame; no RangeError guard exists in the source. -/
theorem setVelocity_no_range_check (vel vScalF : Nat) (hv : vel < 65536)
    (hs : vScalF ≠ 50) :
    setVelocityWrites vel vScalF
      = some (86 :: vel % 256 :: vel / 256 :: [CR]) := by
  simp [setVelocityWrites, setVelocityEncode, packH, hv, hs]

/-- C3 amended witness: the no-validation theorem applied to the claim's
own input, magnitude 40000 with scale factor 10. -/
theorem setVelocity_no_range_check_witness :
    setVelocityWrites 40000 10
      = some (86 :: 40000 % 256 :: 40000 / 256 :: [CR]) :=
  setVelocity_no_range_check 40000 10 (by decide) (by decide)

/-- C4: for every 12-byte position response, getPosition interprets the
bytes as three little-endian signed 32-bit integers and divides each by the
cached step multiplier; on the response packing the step counts 10000,
20000 and 30000 with step multiplier 25 it yields the position
(400, 800, 1200) in micrometers. -/
theorem getPosition_decode_spec (bs : List Nat) (m : ℚ) (hlen : bs.length = 12) :
    getPositionModel (bs ++ [CR]) m = some
      ((toSigned32 (le32 (bs.getD 0 0) (bs.getD 1 0) (bs.getD 2 0)
          (bs.getD 3 0)) : ℚ) / m,
       (toSigned32 (le32 (bs.getD 4 0) (bs.getD 5 0) (bs.getD 6 0)
          (bs.getD 7 0)) : ℚ) / m,
       (toSigned32 (le32 (bs.getD 8 0) (bs.getD 9 0) (bs.getD 10 0)
          (bs.getD 11 0)) : ℚ) / m) ∧
    getPositionModel (toBytesLE32 10000 ++ toBytesLE32 20000
        ++ toBytesLE32 30000 ++ [CR]) 25 = some (400, 800, 1200) := by
  constructor
  · have htake : (bs ++ [CR]).take 12 = bs := by
      rw [List.take_append_of_le_length (by omega),
        List.take_of_length_le (by omega)]
    have hc : 12 ≤ (bs ++ [CR]).length := by
      rw [List.length_append]
      omega
    simp only [getPositionModel]
    rw [if_pos hc, htake]
    rfl
  · have hc : 12 ≤ (toBytesLE32 10000 ++ toBytesLE32 20000
        ++ toBytesLE32 30000 ++ [CR]).length := by decide
    have htake : (toBytesLE32 10000 ++ toBytesLE32 20000
        ++ toBytesLE32 30000 ++ [CR]).take 12
        = [16, 39, 0, 0, 32, 78, 0, 0, 48, 117, 0, 0] := by decide
    have hu : unpackLLL [16, 39, 0, 0, 32, 78, 0, 0, 48, 117, 0, 0]
        = (10000, 20000, 30000) := by decide
    simp only [getPositionModel]
    rw [if_pos hc, htake]
    simp only [getPositionDecode, hu]
    norm_num

/-- C4 witness: the decode theorem applied to the concrete packed response
for the step counts 10000, 20000 and 30000 with step multiplier 25. -/
theorem getPosition_decode_spec_witness :
    getPositionModel (toBytesLE32 10000 ++ toBytesLE32 20000
        ++ toBytesLE32 30000 ++ [CR]) 25 = some (400, 800, 1200) :=
  (getPosition_decode_spec [16, 39, 0, 0, 32, 78, 0, 0, 48, 117, 0, 0] 25
    (by decide)).2

/-- C5: for every signed 32-bit-representable step triple and positive step
multiplier m, encoding the position s/m as gotoPosition does (multiply by m,
truncate toward zero, pack as signed 32-bit little-endian) and decoding the
resulting bytes as getPosition does recovers s/m to within 1/m per axis. -/
theorem encode_decode_roundtrip (s1 s2 s3 : ℤ) (m : ℚ) (hm : 0 < m)
    (h1l : -(2 ^ 31) ≤ s1) (h1u : s1 < 2 ^ 31)
    (h2l : -(2 ^ 31) ≤ s2) (h2u : s2 < 2 ^ 31)
    (h3l : -(2 ^ 31) ≤ s3) (h3u : s3 < 2 ^ 31) :
    ∃ bs xyz,
      (gotoPositionModel [(s1 : ℚ) / m, (s2 : ℚ) / m, (s3 : ℚ) / m] m
        true 0 1).writes = [109 :: (bs ++ [CR])] ∧
      getPositionModel (bs ++ [CR]) m = some xyz ∧
      |xyz.1 - (s1 : ℚ) / m| ≤ 1 / m ∧
      |xyz.2.1 - (s2 : ℚ) / m| ≤ 1 / m ∧
      |xyz.2.2 - (s3 : ℚ) / m| ≤ 1 / m := by
  have hm0 : m ≠ 0 := ne_of_gt hm
  have e1 : truncTowardZero ((s1 : ℚ) / m * m) = s1 := by
    rw [div_mul_cancel₀ _ hm0, truncTowardZero_intCast]
  have e2 : truncTowardZero ((s2 : ℚ) / m * m) = s2 := by
    rw [div_mul_cancel₀ _ hm0, truncTowardZero_intCast]
  have e3 : truncTowardZero ((s3 : ℚ) / m * m) = s3 := by
    rw [div_mul_cancel₀ _ hm0, truncTowardZero_intCast]
  have hp1 : packL s1 = some (toBytesLE32 s1) := by
    simp only [packL]
    rw [if_pos ⟨h1l, h1u⟩]
  have hp2 : packL s2 = some (toBytesLE32 s2) := by
    simp only [packL]
    rw [if_pos ⟨h2l, h2u⟩]
  have hp3 : packL s3 = some (toBytesLE32 s3) := by
    simp only [packL]
    rw [if_pos ⟨h3l, h3u⟩]
  have hp : packLLL s1 s2 s3
      = some (toBytesLE32 s1 ++ toBytesLE32 s2 ++ toBytesLE32 s3) := by
    simp [packLLL, hp1, hp2, hp3]
  have hlen12 : (toBytesLE32 s1 ++ toBytesLE32 s2 ++ toBytesLE32 s3).length
      = 12 := by
    simp [toBytesLE32]
  have hu : unpackLLL (toBytesLE32 s1 ++ toBytesLE32 s2 ++ toBytesLE32 s3)
      = (s1, s2, s3) := by
    rw [unpackLLL_toBytes, toSigned32_le32_word32 s1 h1l h1u,
      toSigned32_le32_word32 s2 h2l h2u, toSigned32_le32_word32 s3 h3l h3u]
  refine ⟨toBytesLE32 s1 ++ toBytesLE32 s2 ++ toBytesLE32 s3,
    ((s1 : ℚ) / m, (s2 : ℚ) / m, (s3 : ℚ) / m), ?_, ?_, ?_, ?_, ?_⟩
  · simp only [gotoPositionModel]
    rw [if_neg (fun h => h rfl)]
    rw [show [(s1 : ℚ) / m, (s2 : ℚ) / m, (s3 : ℚ) / m].getD 0 0
        = (s1 : ℚ) / m from rfl,
      show [(s1 : ℚ) / m, (s2 : ℚ) / m, (s3 : ℚ) / m].getD 1 0
        = (s2 : ℚ) / m from rfl,
      show [(s1 : ℚ) / m, (s2 : ℚ) / m, (s3 : ℚ) / m].getD 2 0
        = (s3 : ℚ) / m from rfl,
      e1, e2, e3, hp]
    rfl
  · have hc : 12 ≤ ((toBytesLE32 s1 ++ toBytesLE32 s2 ++ toBytesLE32 s3)
        ++ [CR]).length := by
      rw [List.length_append, hlen12]
      decide
    have htake : ((toBytesLE32 s1 ++ toBytesLE32 s2 ++ toBytesLE32 s3)
        ++ [CR]).take 12 = toBytesLE32 s1 ++ toBytesLE32 s2 ++ toBytesLE32 s3 := by
      rw [List.take_append_of_le_length (le_of_eq hlen12.symm),
        List.take_of_length_le (le_of_eq hlen12)]
    simp only [getPositionModel]
    rw [if_pos hc, htake]
    simp only [getPositionDecode, hu]
  · rw [show ((s1 : ℚ) / m, (s2 : ℚ) / m, (s3 : ℚ) / m).1 = (s1 : ℚ) / m
      from rfl, sub_self, abs_zero]
    exact (div_pos one_pos hm).le
  · rw [show ((s1 : ℚ) / m, (s2 : ℚ) / m, (s3 : ℚ) / m).2.1 = (s2 : ℚ) / m
      from rfl, sub_self, abs_zero]
    exact (div_pos one_pos hm).le
  · rw [show ((s1 : ℚ) / m, (s2 : ℚ) / m, (s3 : ℚ) / m).2.2 = (s3 : ℚ) / m
      from rfl, sub_self, abs_zero]
    exact (div_pos one_pos hm).le

/-- C5 witness: the round-trip theorem applied to the step triple
(10000, -20000, 30000) with step multiplier 25. -/
theorem encode_decode_roundtrip_witness :
    ∃ bs xyz,
      (gotoPositionModel [((10000 : ℤ) : ℚ) / 25, ((-20000 : ℤ) : ℚ) / 25,
        ((30000 : ℤ) : ℚ) / 25] 25 true 0 1).writes = [109 :: (bs ++ [CR])] ∧
      getPositionModel (bs ++ [CR]) 25 = some xyz ∧
      |xyz.1 - ((10000 : ℤ) : ℚ) / 25| ≤ 1 / 25 ∧
      |xyz.2.1 - ((-20000 : ℤ) : ℚ) / 25| ≤ 1 / 25 ∧
      |xyz.2.2 - ((30000 : ℤ) : ℚ) / 25| ≤ 1 / 25 :=
  encode_decode_roundtrip 10000 (-20000) 30000 25 (by norm_num) (by decide)
    (by decide) (by decide) (by decide) (by decide) (by decide)

/-- C7 counterexample: a response of exactly 12 bytes with the terminator
missing is not "12 data bytes plus terminator", yet getPosition raises no
error and fully interprets it: with step multiplier 25 the packed step
counts 10000, 20000 and 30000 decode to the position (400, 800, 1200). -/
theorem getPosition_no_terminator_decodes :
    getPositionModel (toBytesLE32 10000 ++ toBytesLE32 20000
      ++ toBytesLE32 30000) 25 = some (400, 800, 1200) := by
  have hc : 12 ≤ (toBytesLE32 10000 ++ toBytesLE32 20000
      ++ toBytesLE32 30000).length := by decide
  have htake : (toBytesLE32 10000 ++ toBytesLE32 20000
      ++ toBytesLE32 30000).take 12
      = [16, 39, 0, 0, 32, 78, 0, 0, 48, 117, 0, 0] := by decide
  have hu : unpackLLL [16, 39, 0, 0, 32, 78, 0, 0, 48, 117, 0, 0]
      = (10000, 20000, 30000) := by decide
  simp only [getPositionModel]
  rw [if_pos hc, htake]
  simp only [getPositionDecode, hu]
  norm_num

/-- C7 amended: getPosition checks no response length.  Whenever the read
returned at least 12 bytes, even with the terminator missing, the first 12
bytes are decoded as a position; only when fewer than 12 bytes arrived does
the unpack raise, and then no partial interpretation is attempted. -/
theorem getPosition_length_behavior (resp : List Nat) (m : ℚ) :
    (resp.length < 12 → getPositionModel resp m = none) ∧
    (12 ≤ resp.length →
      getPositionModel resp m = some (getPositionDecode (resp.take 12) m)) := by
  constructor
  · intro h
    simp only [getPositionModel]
    rw [if_neg (by omega)]
  · intro h
    simp only [getPositionModel]
    rw [if_pos h]

/-- C7 amended witness: a 6-byte short read makes getPosition fail. -/
theorem getPosition_length_behavior_witness :
    getPositionModel [16, 39, 0, 0, 32, 78] 25 = none :=
  (getPosition_length_behavior [16, 39, 0, 0, 32, 78] 25).1 (by decide)

/-- C6: evaluation at a successful move.  gotoPosition on (400, 800, 1200)
with step multiplier 25, acknowledgement received, start time 0 and end
time 1/4 prints the completion message carrying the elapsed quarter second,
yet returns None to the caller, although the module's own header comment
promises that the elapsed move time is returned; the timeout branch prints
the message carrying the configured timeout and likewise returns None. -/
theorem gotoPosition_retval_bug :
    (gotoPositionModel [400, 800, 1200] 25 true 0 (1 / 4)).completedMsg
      = some (1 / 4) ∧
    (gotoPositionModel [400, 800, 1200] 25 true 0 (1 / 4)).retval = none ∧
    (gotoPositionModel [400, 800, 1200] 25 false 0 (1 / 4)).timeoutMsg
      = some timeOut ∧
    (gotoPositionModel [400, 800, 1200] 25 false 0 (1 / 4)).retval = none := by
  have e1 : truncTowardZero ((400 : ℚ) * 25) = 10000 := by
    rw [show ((400 : ℚ) * 25) = ((10000 : ℤ) : ℚ) by norm_num,
      truncTowardZero_intCast]
  have e2 : truncTowardZero ((800 : ℚ) * 25) = 20000 := by
    rw [show ((800 : ℚ) * 25) = ((20000 : ℤ) : ℚ) by norm_num,
      truncTowardZero_intCast]
  have e3 : truncTowardZero ((1200 : ℚ) * 25) = 30000 := by
    rw [show ((1200 : ℚ) * 25) = ((30000 : ℤ) : ℚ) by norm_num,
      truncTowardZero_intCast]
  have hred : ∀ ack : Bool, gotoPositionModel [400, 800, 1200] 25 ack 0 (1 / 4)
      = (if ack then
          { writes := [109 :: ((toBytesLE32 10000 ++ toBytesLE32 20000
              ++ toBytesLE32 30000) ++ [CR])], exited := none,
            packErr := false, timeoutMsg := none,
            completedMsg := some (1 / 4 - 0), retval := none }
        else
          { writes := [109 :: ((toBytesLE32 10000 ++ toBytesLE32 20000
              ++ toBytesLE32 30000) ++ [CR])], exited := none,
            packErr := false, timeoutMsg := some timeOut,
            completedMsg := none, retval := none }) := by
    intro ack
    simp only [gotoPositionModel]
    rewrite [if_neg (fun h => h rfl)]
    rewrite [show ([400, 800, 1200] : List ℚ).getD 0 0 = 400 from rfl,
      show ([400, 800, 1200] : List ℚ).getD 1 0 = 800 from rfl,
      show ([400, 800, 1200] : List ℚ).getD 2 0 = 1200 from rfl,
      e1, e2, e3,
      show packLLL 10000 20000 30000 = some (toBytesLE32 10000
        ++ toBytesLE32 20000 ++ toBytesLE32 30000) from by decide]
    cases ack <;> rfl
  rw [hred true, hred false]
  norm_num

/-- C9: after the serial port opens successfully, the constructor writes
the velocity frame for (200, scale 10), then the panel-update frame, then
the status-query frame; when the decoded current velocity differs from
200 it still returns a controller, does not exit, caches the decoded
calibration, and prints the warning message rather than failing. -/
theorem init_degraded_startup (statusResp : List Nat)
    (h32 : statusResp.length = 32)
    (hv : (statusDecode statusResp).currentVelocity ≠ 200) :
    initModel true statusResp =
      { writes := [[86, 200, 0, CR], [110, CR], [115, CR]], exited := none,
        structErr := false, calib := some (statusDecode statusResp),
        msg := some StartupMsg.warning } := by
  have hw : setVelocityWrites 200 10 = some [86, 200, 0, CR] := by decide
  simp only [initModel, hw, h32, if_true]
  rewrite [if_neg hv]
  rfl

/-- C9 witness: the startup theorem applied to the all-zero 32-byte status
block, whose decoded current velocity is 0. -/
theorem init_degraded_startup_witness :
    initModel true (List.replicate 32 0) =
      { writes := [[86, 200, 0, CR], [110, CR], [115, CR]], exited := none,
        structErr := false, calib := some (statusDecode (List.replicate 32 0)),
        msg := some StartupMsg.warning } :=
  init_degraded_startup (List.replicate 32 0) (by decide)
    (by
      have e29 : (List.replicate 32 (0 : Nat)).getD 29 0 = 0 := by decide
      have e28 : (List.replicate 32 (0 : Nat)).getD 28 0 = 0 := by decide
      have emask : (127 &&& 0 : Nat) = 0 := by decide
      simp only [statusDecode, e29, e28, emask]
      norm_num)

/-- C10: gotoPosition called with a position argument that does not have
exactly three coordinates terminates the process with exit status 1 and
writes nothing to the transport. -/
theorem gotoPosition_wrong_length_exits (pos : List ℚ) (stepMult : ℚ)
    (ack : Bool) (t0 t1 : ℚ) (h : pos.length ≠ 3) :
    (gotoPositionModel pos stepMult ack t0 t1).exited = some 1 ∧
    (gotoPositionModel pos stepMult ack t0 t1).writes = [] := by
  simp only [gotoPositionModel]
  rw [if_pos h]
  exact ⟨rfl, rfl⟩

/-- C10 witness: the exit theorem applied to a two-coordinate position. -/
theorem gotoPosition_wrong_length_exits_witness :
    (gotoPositionModel [0, 0] 25 true 0 1).exited = some 1 ∧
    (gotoPositionModel [0, 0] 25 true 0 1).writes = [] :=
  gotoPosition_wrong_length_exits [0, 0] 25 true 0 1 (by decide)
